import Mathlib

/-!
Shallow embedding of the Cloudflare DNS migration tool's core
(`src/server/routes.ts`: the `/api/migration/*`, `/api/config` routes and the
`processMigration` engine; `src/unnamed/part_000`: the in-memory `MemStorage`).

Conventions of the embedding:
- JS `Map<string, T>` objects become association lists with `set`-by-key
  semantics (`setBy`); JS `Map` iteration order (insertion order) matches
  list order.
- `Date` timestamps and `randomUUID` values carry no information that any
  property depends on: timestamp fields are omitted, the random job id is
  modelled by a fresh counter (`nextId`), the random entry id of activity-log
  entries is omitted. `completedAt` is modelled as a `Bool` ("has been set").
- JS numbers are modelled as `Nat`/`Int`/`ℚ` with exact arithmetic.
- The external Cloudflare update call is modelled by an environment `Env`
  giving, per record id, either success (`none`) or the thrown error message
  (`some msg`).
-/

namespace DnsMigrate

/-- API configuration, as stored by `MemStorage.saveApiConfiguration`
(`lastConnected`, a `Date`, is omitted). -/
structure ApiConfiguration where
  id : String
  email : String
  apiKey : String
  isConnected : Bool
deriving DecidableEq

/-- A cached DNS record snapshot, as built by the `/api/dns/scan` route. -/
structure DnsRecord where
  id : String
  zoneId : String
  zoneName : String
  name : String
  type : String
  content : String
  ttl : Nat
  proxied : Bool
  locked : Bool
deriving DecidableEq

/-- A migration job, as created by `MemStorage.createMigrationJob`.
`completedAt : Bool` records whether the `completedAt` date has been set. -/
structure MigrationJob where
  id : String
  oldIp : String
  newIp : String
  totalRecords : Nat
  completedRecords : Nat
  failedRecords : Nat
  status : String
  completedAt : Bool
deriving DecidableEq

/-- Per-record migration status (`updatedAt` date omitted). -/
structure MigrationRecordStatus where
  id : String
  jobId : String
  recordId : String
  status : String
  errorMessage : Option String
deriving DecidableEq

/-- An activity log entry (random `id` and `timestamp` date omitted). -/
structure ActivityLogEntry where
  type : String
  message : String
  details : Option String
deriving DecidableEq

/-- The in-memory storage (`MemStorage` in the source). Maps keyed by id
become association lists; `nextId` models `randomUUID` freshness for jobs.
Zones and backups are not touched by any property considered here and are
omitted. -/
structure MemStorage where
  apiConfiguration : Option ApiConfiguration
  dnsRecords : List DnsRecord
  migrationJobs : List MigrationJob
  migrationRecordStatuses : List MigrationRecordStatus
  activityLog : List ActivityLogEntry
  nextId : Nat
deriving DecidableEq

/-- Model of `Map.set` on an association list: replace the entry with the same key,
or append at the end (JS `Map` keeps insertion order). -/
def setBy (key : α → String) : List α → α → List α
  | [], r => [r]
  | x :: xs, r => if key x = key r then r :: xs else x :: setBy key xs r

/-- Embedding of `MemStorage.saveDnsRecords`: clear the map, then `set` each record. -/
def MemStorage.saveDnsRecords (st : MemStorage) (records : List DnsRecord) :
    MemStorage :=
  { st with dnsRecords := records.foldl (setBy DnsRecord.id) [] }

/-- Embedding of `MemStorage.getDnsRecords`: the map's values in insertion order. -/
def MemStorage.getDnsRecords (st : MemStorage) : List DnsRecord :=
  st.dnsRecords

/-- Embedding of `MemStorage.createMigrationJob`: fresh id, zero counters, `pending`. -/
def MemStorage.createMigrationJob (st : MemStorage)
    (oldIp newIp : String) (totalRecords : Nat) : MigrationJob × MemStorage :=
  let job : MigrationJob :=
    { id := "job-" ++ toString st.nextId, oldIp := oldIp, newIp := newIp,
      totalRecords := totalRecords, completedRecords := 0, failedRecords := 0,
      status := "pending", completedAt := false }
  (job, { st with migrationJobs := setBy MigrationJob.id st.migrationJobs job, nextId := st.nextId + 1 })

/-- Embedding of `MemStorage.getMigrationJob`. -/
def MemStorage.getMigrationJob (st : MemStorage) (jobId : String) :
    Option MigrationJob :=
  st.migrationJobs.find? (fun j => j.id == jobId)

/-- Embedding of `MemStorage.updateMigrationJobProgress`: overwrite both counters. -/
def MemStorage.updateMigrationJobProgress (st : MemStorage) (jobId : String)
    (completed failed : Nat) : MemStorage :=
  let jobs := st.migrationJobs.map (fun j =>
    if j.id == jobId then
      { j with completedRecords := completed, failedRecords := failed }
    else j)
  { st with migrationJobs := jobs }

/-- Embedding of `MemStorage.updateMigrationJobStatus`: set status; mark `completedAt`
when the new status is `completed` or `failed`. -/
def MemStorage.updateMigrationJobStatus (st : MemStorage)
    (jobId status : String) : MemStorage :=
  let jobs := st.migrationJobs.map (fun j =>
    if j.id == jobId then
      { j with status := status, completedAt := if status == "completed" || status == "failed" then true else j.completedAt }
    else j)
  { st with migrationJobs := jobs }

/-- Embedding of `MemStorage.saveMigrationRecordStatus`: write each given status. -/
def MemStorage.saveMigrationRecordStatus (st : MemStorage)
    (statuses : List MigrationRecordStatus) : MemStorage :=
  let m := statuses.foldl (setBy MigrationRecordStatus.id) st.migrationRecordStatuses
  { st with migrationRecordStatuses := m }

/-- The JS `errorMessage || null` coercion: `undefined` and the empty string
both store `null`. -/
def normErr : Option String → Option String
  | some s => if s.isEmpty then none else some s
  | none => none

/-- Embedding of `MemStorage.updateMigrationRecordStatus`: if the entry exists, set its
status and error message (with the `|| null` coercion). -/
def MemStorage.updateMigrationRecordStatus (st : MemStorage)
    (recordId status : String) (errorMessage : Option String) : MemStorage :=
  let m := st.migrationRecordStatuses.map (fun rs =>
    if rs.id == recordId then
      { rs with status := status, errorMessage := normErr errorMessage }
    else rs)
  { st with migrationRecordStatuses := m }

/-- Lookup of a record-status entry by its composite key. -/
def MemStorage.recordStatus (st : MemStorage) (key : String) :
    Option MigrationRecordStatus :=
  st.migrationRecordStatuses.find? (fun rs => rs.id == key)

/-- Embedding of `MemStorage.addActivityLogEntry`: prepend, then keep only the newest
100 entries. -/
def MemStorage.addActivityLogEntry (st : MemStorage) (e : ActivityLogEntry) :
    MemStorage :=
  let log := e :: st.activityLog
  { st with activityLog := if log.length > 100 then log.take 100 else log }

/-- Embedding of `MemStorage.getActivityLog`: the newest `limit` entries. -/
def MemStorage.getActivityLog (st : MemStorage) (limit : Nat) :
    List ActivityLogEntry :=
  st.activityLog.take limit

/-! ## Routes (`src/server/routes.ts`) -/

/-- The body of `GET /api/config`: every field of the configuration except
`apiKey`, plus `hasApiKey = Boolean(apiKey)`. -/
structure SafeConfig where
  id : String
  email : String
  isConnected : Bool
  hasApiKey : Bool
deriving DecidableEq

/-- Embedding of `GET /api/config`: destructure `apiKey` out of the stored configuration
and report only `hasApiKey`. `none` models the 404 response. -/
def getConfigRoute (st : MemStorage) : Option SafeConfig :=
  st.apiConfiguration.map (fun c =>
    { id := c.id, email := c.email, isConnected := c.isConnected, hasApiKey := !c.apiKey.isEmpty })

/-- Result of `POST /api/migration/start`: HTTP 400 or the new job id. -/
inductive StartResult where
  | invalidRequest
  | ok (jobId : String)
deriving DecidableEq

/-- Embedding of `POST /api/migration/start`: validate, create the job, create one
`pending` status per record id, write the start activity entry, and return
the job id (processing itself runs asynchronously; see `processMigration`).
A falsy (empty) `oldIp`/`newIp` or an empty `recordIds` array is rejected
with HTTP 400 before any state is touched. -/
def startMigration (st : MemStorage) (oldIp newIp : String)
    (recordIds : List String) : StartResult × MemStorage :=
  if oldIp.isEmpty || newIp.isEmpty || recordIds.isEmpty then
    (StartResult.invalidRequest, st)
  else
    let p := st.createMigrationJob oldIp newIp recordIds.length
    let job := p.1
    let st1 := p.2
    let statuses : List MigrationRecordStatus := recordIds.map (fun rid =>
      { id := job.id ++ "-" ++ rid, jobId := job.id, recordId := rid, status := "pending", errorMessage := none })
    let st2 := st1.saveMigrationRecordStatus statuses
    let entry : ActivityLogEntry :=
      { type := "info", message := "Starting migration for " ++ toString recordIds.length ++ " DNS records", details := some (oldIp ++ " → " ++ newIp) }
    let st3 := st2.addActivityLogEntry entry
    (StartResult.ok job.id, st3)

/-- The progress snapshot returned by `GET /api/migration/:jobId/progress`. -/
structure MigrationProgress where
  jobId : String
  totalRecords : Nat
  completedRecords : Nat
  failedRecords : Nat
  processingRecords : Int
  status : String
  progressPercentage : Int
deriving DecidableEq

/-- JavaScript `Math.round` on an exact rational: round half toward
positive infinity. -/
def mathRound (x : ℚ) : ℤ := ⌊x + 1 / 2⌋

/-- Embedding of `GET /api/migration/:jobId/progress` (here `none` models the 404 response). -/
def getProgressRoute (st : MemStorage) (jobId : String) :
    Option MigrationProgress :=
  (st.getMigrationJob jobId).map (fun job =>
    { jobId := job.id, totalRecords := job.totalRecords, completedRecords := job.completedRecords, failedRecords := job.failedRecords, processingRecords := (job.totalRecords : Int) - job.completedRecords - job.failedRecords, status := job.status, progressPercentage := mathRound (((job.completedRecords + job.failedRecords : ℚ) / job.totalRecords) * 100) })

/-! ## The migration engine (`processMigration`) -/

/-- One `PATCH /zones/:zoneId/dns_records/:recordId` call as issued by the
engine, with the exact payload fields. -/
structure UpdateCall where
  zoneId : String
  recordId : String
  type : String
  name : String
  content : String
  ttl : Nat
  proxied : Bool
deriving DecidableEq

/-- The external world: for each record id, `cfApi.updateDnsRecord` either
succeeds (`none`) or throws an error with the given message (`some msg`). -/
structure Env where
  updateResult : String → Option String

/-- The first list element with the given record id gets its `content`
replaced — the JS `record.content = newIp` mutation of the object returned
by `allRecords.find(...)`. -/
def updateContentFirst (rid newIp : String) : List DnsRecord → List DnsRecord
  | [] => []
  | r :: rs =>
    if r.id = rid then { r with content := newIp } :: rs
    else r :: updateContentFirst rid newIp rs

/-- Result of one iteration of the `processMigration` loop body. -/
structure StepResult where
  st : MemStorage
  calls : List UpdateCall
  ok : Bool
deriving DecidableEq

/-- One iteration of the `for (const recordId of recordIds)` loop body in
`processMigration`: mark the record `processing`, look it up in the cached
listing, issue the update call, and record the outcome. The surrounding
`try/catch` turns both a missing record and a failed update call into a
per-record failure. -/
def processRecord (env : Env) (jobId recordId oldIp newIp : String)
    (st : MemStorage) : StepResult :=
  let key := jobId ++ "-" ++ recordId
  let st0 := st.updateMigrationRecordStatus key "processing" none
  let allRecords := st0.getDnsRecords
  match allRecords.find? (fun r => r.id == recordId) with
  | none =>
    let msg := "Record not found"
    let st1 := st0.updateMigrationRecordStatus key "failed" (some msg)
    let entry : ActivityLogEntry := { type := "error", message := "Failed to update DNS record: " ++ msg, details := none }
    { st := st1.addActivityLogEntry entry, calls := [], ok := false }
  | some record =>
    let call : UpdateCall := { zoneId := record.zoneId, recordId := record.id, type := record.type, name := record.name, content := newIp, ttl := record.ttl, proxied := record.proxied }
    match env.updateResult recordId with
    | some err =>
      let msg := if err.isEmpty then "Unknown error" else err
      let st1 := st0.updateMigrationRecordStatus key "failed" (some msg)
      let entry : ActivityLogEntry := { type := "error", message := "Failed to update DNS record: " ++ msg, details := none }
      { st := st1.addActivityLogEntry entry, calls := [call], ok := false }
    | none =>
      let st1 := st0.saveDnsRecords (updateContentFirst recordId newIp allRecords)
      let st2 := st1.updateMigrationRecordStatus key "completed" none
      let entry : ActivityLogEntry := { type := "success", message := "Updated DNS record for " ++ record.name, details := some (oldIp ++ " → " ++ newIp) }
      { st := st2.addActivityLogEntry entry, calls := [call], ok := true }

/-- Result of the whole processing loop. -/
structure LoopResult where
  st : MemStorage
  completed : Nat
  failed : Nat
  calls : List UpdateCall
deriving DecidableEq

/-- The `for (const recordId of recordIds)` loop of `processMigration`:
after each record, exactly one of the two local counters is incremented and
both are persisted via `updateMigrationJobProgress`. -/
def processLoop (env : Env) (jobId oldIp newIp : String) :
    List String → Nat → Nat → MemStorage → LoopResult
  | [], completed, failed, st =>
    { st := st, completed := completed, failed := failed, calls := [] }
  | recordId :: rest, completed, failed, st =>
    let step := processRecord env jobId recordId oldIp newIp st
    let completed1 := if step.ok then completed + 1 else completed
    let failed1 := if step.ok then failed else failed + 1
    let st2 := step.st.updateMigrationJobProgress jobId completed1 failed1
    let r := processLoop env jobId oldIp newIp rest completed1 failed1 st2
    { st := r.st, completed := r.completed, failed := r.failed, calls := step.calls ++ r.calls }

/-- Result of a whole `processMigration` run: the final storage state and
the trace of update calls issued against the Cloudflare API. -/
structure RunResult where
  st : MemStorage
  calls : List UpdateCall
deriving DecidableEq

/-- Embedding of `processMigration`: if no API configuration exists the batch cannot
start and the outer `catch` marks the job `failed`; otherwise the job runs
to `completed` regardless of per-record outcomes. -/
def processMigration (env : Env) (jobId : String) (recordIds : List String)
    (oldIp newIp : String) (st : MemStorage) : RunResult :=
  match st.apiConfiguration with
  | none =>
    let st1 := st.updateMigrationJobStatus jobId "failed"
    let entry : ActivityLogEntry := { type := "error", message := "Migration failed: No API configuration found", details := none }
    { st := st1.addActivityLogEntry entry, calls := [] }
  | some _ =>
    let st1 := st.updateMigrationJobStatus jobId "running"
    let r := processLoop env jobId oldIp newIp recordIds 0 0 st1
    let st2 := r.st.updateMigrationJobStatus jobId "completed"
    let entry : ActivityLogEntry := { type := "success", message := "Migration completed: " ++ toString r.completed ++ " success, " ++ toString r.failed ++ " failed", details := none }
    { st := st2.addActivityLogEntry entry, calls := r.calls }

/-! ## Basic lemmas about the storage operations -/

theorem find?_map_of_pred_invariant {α : Type} {l : List α} {g : α → α}
    {p : α → Bool} (h : ∀ a, p (g a) = p a) :
    (l.map g).find? p = (l.find? p).map g := by
  rw [List.find?_map]
  have hp : p ∘ g = p := funext h
  rw [hp]

@[simp] theorem updateRecordStatus_jobs (st : MemStorage) (k s : String)
    (e : Option String) :
    (st.updateMigrationRecordStatus k s e).migrationJobs = st.migrationJobs := rfl

@[simp] theorem updateRecordStatus_dns (st : MemStorage) (k s : String)
    (e : Option String) :
    (st.updateMigrationRecordStatus k s e).dnsRecords = st.dnsRecords := rfl

@[simp] theorem updateRecordStatus_log (st : MemStorage) (k s : String)
    (e : Option String) :
    (st.updateMigrationRecordStatus k s e).activityLog = st.activityLog := rfl

@[simp] theorem updateRecordStatus_config (st : MemStorage) (k s : String)
    (e : Option String) :
    (st.updateMigrationRecordStatus k s e).apiConfiguration = st.apiConfiguration := rfl

@[simp] theorem addActivity_jobs (st : MemStorage) (e : ActivityLogEntry) :
    (st.addActivityLogEntry e).migrationJobs = st.migrationJobs := rfl

@[simp] theorem addActivity_dns (st : MemStorage) (e : ActivityLogEntry) :
    (st.addActivityLogEntry e).dnsRecords = st.dnsRecords := rfl

@[simp] theorem addActivity_statuses (st : MemStorage) (e : ActivityLogEntry) :
    (st.addActivityLogEntry e).migrationRecordStatuses = st.migrationRecordStatuses := rfl

@[simp] theorem addActivity_config (st : MemStorage) (e : ActivityLogEntry) :
    (st.addActivityLogEntry e).apiConfiguration = st.apiConfiguration := rfl

@[simp] theorem saveDns_jobs (st : MemStorage) (records : List DnsRecord) :
    (st.saveDnsRecords records).migrationJobs = st.migrationJobs := rfl

@[simp] theorem saveDns_statuses (st : MemStorage) (records : List DnsRecord) :
    (st.saveDnsRecords records).migrationRecordStatuses = st.migrationRecordStatuses := rfl

@[simp] theorem saveDns_log (st : MemStorage) (records : List DnsRecord) :
    (st.saveDnsRecords records).activityLog = st.activityLog := rfl

@[simp] theorem saveDns_config (st : MemStorage) (records : List DnsRecord) :
    (st.saveDnsRecords records).apiConfiguration = st.apiConfiguration := rfl

@[simp] theorem updateProgress_statuses (st : MemStorage) (jobId : String)
    (c f : Nat) :
    (st.updateMigrationJobProgress jobId c f).migrationRecordStatuses = st.migrationRecordStatuses := rfl

@[simp] theorem updateProgress_dns (st : MemStorage) (jobId : String)
    (c f : Nat) :
    (st.updateMigrationJobProgress jobId c f).dnsRecords = st.dnsRecords := rfl

@[simp] theorem updateProgress_log (st : MemStorage) (jobId : String)
    (c f : Nat) :
    (st.updateMigrationJobProgress jobId c f).activityLog = st.activityLog := rfl

@[simp] theorem updateProgress_config (st : MemStorage) (jobId : String)
    (c f : Nat) :
    (st.updateMigrationJobProgress jobId c f).apiConfiguration = st.apiConfiguration := rfl

@[simp] theorem updateJobStatus_statuses (st : MemStorage) (jobId s : String) :
    (st.updateMigrationJobStatus jobId s).migrationRecordStatuses = st.migrationRecordStatuses := rfl

@[simp] theorem updateJobStatus_dns (st : MemStorage) (jobId s : String) :
    (st.updateMigrationJobStatus jobId s).dnsRecords = st.dnsRecords := rfl

@[simp] theorem updateJobStatus_log (st : MemStorage) (jobId s : String) :
    (st.updateMigrationJobStatus jobId s).activityLog = st.activityLog := rfl

@[simp] theorem updateJobStatus_config (st : MemStorage) (jobId s : String) :
    (st.updateMigrationJobStatus jobId s).apiConfiguration = st.apiConfiguration := rfl

@[simp] theorem recordStatus_addActivity (st : MemStorage)
    (e : ActivityLogEntry) (k : String) :
    (st.addActivityLogEntry e).recordStatus k = st.recordStatus k := rfl

@[simp] theorem recordStatus_saveDns (st : MemStorage)
    (records : List DnsRecord) (k : String) :
    (st.saveDnsRecords records).recordStatus k = st.recordStatus k := rfl

@[simp] theorem recordStatus_updateProgress (st : MemStorage) (jobId : String)
    (c f : Nat) (k : String) :
    (st.updateMigrationJobProgress jobId c f).recordStatus k = st.recordStatus k := rfl

@[simp] theorem recordStatus_updateJobStatus (st : MemStorage)
    (jobId s k : String) :
    (st.updateMigrationJobStatus jobId s).recordStatus k = st.recordStatus k := rfl

@[simp] theorem getMigrationJob_addActivity (st : MemStorage)
    (e : ActivityLogEntry) (j : String) :
    (st.addActivityLogEntry e).getMigrationJob j = st.getMigrationJob j := rfl

@[simp] theorem getMigrationJob_saveDns (st : MemStorage)
    (records : List DnsRecord) (j : String) :
    (st.saveDnsRecords records).getMigrationJob j = st.getMigrationJob j := rfl

@[simp] theorem getMigrationJob_updateRecordStatus (st : MemStorage)
    (k s : String) (e : Option String) (j : String) :
    (st.updateMigrationRecordStatus k s e).getMigrationJob j = st.getMigrationJob j := rfl

/-- The activity log after one append is always the newest-first `take 100`
of the new entry consed onto the old log. -/
theorem addActivity_log (st : MemStorage) (e : ActivityLogEntry) :
    (st.addActivityLogEntry e).activityLog = (e :: st.activityLog).take 100 := by
  unfold MemStorage.addActivityLogEntry
  by_cases h : (e :: st.activityLog).length > 100
  · simp [h]
  · simp only [h, if_false]
    rw [List.take_of_length_le (by omega)]

/-- Effect of `updateMigrationRecordStatus` on the entry it targets. -/
theorem recordStatus_update_self (st : MemStorage) (k s : String)
    (e : Option String) :
    (st.updateMigrationRecordStatus k s e).recordStatus k =
      (st.recordStatus k).map (fun rs => { rs with status := s, errorMessage := normErr e }) := by
  unfold MemStorage.updateMigrationRecordStatus MemStorage.recordStatus
  simp only
  rw [find?_map_of_pred_invariant (by intro a; by_cases h : a.id == k <;> simp [h])]
  cases hf : st.migrationRecordStatuses.find? (fun rs => rs.id == k) with
  | none => rfl
  | some rs =>
    have hp := List.find?_some hf
    rw [beq_iff_eq] at hp
    simp [hp]

/-- Lemma: `updateMigrationRecordStatus` leaves entries with a different key alone. -/
theorem recordStatus_update_ne (st : MemStorage) (k k' s : String)
    (e : Option String) (h : k' ≠ k) :
    (st.updateMigrationRecordStatus k s e).recordStatus k' = st.recordStatus k' := by
  unfold MemStorage.updateMigrationRecordStatus MemStorage.recordStatus
  simp only
  rw [find?_map_of_pred_invariant (by intro a; by_cases hb : a.id == k <;> simp [hb])]
  cases hf : st.migrationRecordStatuses.find? (fun rs => rs.id == k') with
  | none => rfl
  | some rs =>
    have hp := List.find?_some hf
    rw [beq_iff_eq] at hp
    simp [hp, h]

/-- Effect of `updateMigrationJobProgress` on the job it targets. -/
theorem getMigrationJob_updateProgress_self (st : MemStorage) (jobId : String)
    (c f : Nat) :
    (st.updateMigrationJobProgress jobId c f).getMigrationJob jobId =
      (st.getMigrationJob jobId).map (fun j => { j with completedRecords := c, failedRecords := f }) := by
  unfold MemStorage.updateMigrationJobProgress MemStorage.getMigrationJob
  simp only
  rw [find?_map_of_pred_invariant (by intro a; by_cases h : a.id == jobId <;> simp [h])]
  cases hf : st.migrationJobs.find? (fun j => j.id == jobId) with
  | none => rfl
  | some j =>
    have hp := List.find?_some hf
    rw [beq_iff_eq] at hp
    simp [hp]

/-- Effect of `updateMigrationJobStatus` on the job it targets. -/
theorem getMigrationJob_updateStatus_self (st : MemStorage) (jobId s : String) :
    (st.updateMigrationJobStatus jobId s).getMigrationJob jobId =
      (st.getMigrationJob jobId).map (fun j => { j with status := s, completedAt := if s == "completed" || s == "failed" then true else j.completedAt }) := by
  unfold MemStorage.updateMigrationJobStatus MemStorage.getMigrationJob
  simp only
  rw [find?_map_of_pred_invariant (by intro a; by_cases h : a.id == jobId <;> simp [h])]
  cases hf : st.migrationJobs.find? (fun j => j.id == jobId) with
  | none => rfl
  | some j =>
    have hp := List.find?_some hf
    rw [beq_iff_eq] at hp
    simp [hp]

/-! ## Lemmas about one engine iteration (`processRecord`) -/

@[simp] theorem getDnsRecords_eq (st : MemStorage) :
    st.getDnsRecords = st.dnsRecords := rfl

/-- The update call the engine builds from a cached snapshot: every field
comes from the snapshot except `content`, which is always `newIp`. -/
def callOf (record : DnsRecord) (newIp : String) : UpdateCall :=
  { zoneId := record.zoneId, recordId := record.id, type := record.type, name := record.name, content := newIp, ttl := record.ttl, proxied := record.proxied }

/-- Behavior of `processRecord` when the record id has no cached snapshot. -/
theorem processRecord_notFound (env : Env) (jobId rid oldIp newIp : String)
    (st : MemStorage)
    (hfind : st.dnsRecords.find? (fun r => r.id == rid) = none) :
    processRecord env jobId rid oldIp newIp st =
      { st := ((st.updateMigrationRecordStatus (jobId ++ "-" ++ rid) "processing" none).updateMigrationRecordStatus (jobId ++ "-" ++ rid) "failed" (some "Record not found")).addActivityLogEntry { type := "error", message := "Failed to update DNS record: Record not found", details := none },
        calls := [], ok := false } := by
  unfold processRecord
  simp only [getDnsRecords_eq, updateRecordStatus_dns]
  rw [hfind]
  rfl

/-- Behavior of `processRecord` when the snapshot exists but the Cloudflare call throws. -/
theorem processRecord_found_fail (env : Env) (jobId rid oldIp newIp : String)
    (st : MemStorage) (record : DnsRecord) (err : String)
    (hfind : st.dnsRecords.find? (fun r => r.id == rid) = some record)
    (henv : env.updateResult rid = some err) :
    processRecord env jobId rid oldIp newIp st =
      { st := ((st.updateMigrationRecordStatus (jobId ++ "-" ++ rid) "processing" none).updateMigrationRecordStatus (jobId ++ "-" ++ rid) "failed" (some (if err.isEmpty then "Unknown error" else err))).addActivityLogEntry { type := "error", message := "Failed to update DNS record: " ++ (if err.isEmpty then "Unknown error" else err), details := none },
        calls := [callOf record newIp], ok := false } := by
  unfold processRecord
  simp only [getDnsRecords_eq, updateRecordStatus_dns]
  rw [hfind, henv]
  rfl

/-- Behavior of `processRecord` when the snapshot exists and the Cloudflare call
succeeds. -/
theorem processRecord_found_ok (env : Env) (jobId rid oldIp newIp : String)
    (st : MemStorage) (record : DnsRecord)
    (hfind : st.dnsRecords.find? (fun r => r.id == rid) = some record)
    (henv : env.updateResult rid = none) :
    processRecord env jobId rid oldIp newIp st =
      { st := (((st.updateMigrationRecordStatus (jobId ++ "-" ++ rid) "processing" none).saveDnsRecords (updateContentFirst rid newIp st.dnsRecords)).updateMigrationRecordStatus (jobId ++ "-" ++ rid) "completed" none).addActivityLogEntry { type := "success", message := "Updated DNS record for " ++ record.name, details := some (oldIp ++ " → " ++ newIp) },
        calls := [callOf record newIp], ok := true } := by
  unfold processRecord
  simp only [getDnsRecords_eq, updateRecordStatus_dns]
  rw [hfind, henv]
  rfl

/-- Frame: `processRecord` never touches the job map. -/
theorem processRecord_getJob (env : Env) (jobId rid oldIp newIp : String)
    (st : MemStorage) (j : String) :
    (processRecord env jobId rid oldIp newIp st).st.getMigrationJob j =
      st.getMigrationJob j := by
  cases hfind : st.dnsRecords.find? (fun r => r.id == rid) with
  | none => rw [processRecord_notFound env jobId rid oldIp newIp st hfind]; simp
  | some record =>
    cases henv : env.updateResult rid with
    | none => rw [processRecord_found_ok env jobId rid oldIp newIp st record hfind henv]; simp
    | some err => rw [processRecord_found_fail env jobId rid oldIp newIp st record err hfind henv]; simp

/-- Frame: `processRecord` never touches the stored API configuration. -/
theorem processRecord_config (env : Env) (jobId rid oldIp newIp : String)
    (st : MemStorage) :
    (processRecord env jobId rid oldIp newIp st).st.apiConfiguration =
      st.apiConfiguration := by
  cases hfind : st.dnsRecords.find? (fun r => r.id == rid) with
  | none => rw [processRecord_notFound env jobId rid oldIp newIp st hfind]; simp
  | some record =>
    cases henv : env.updateResult rid with
    | none => rw [processRecord_found_ok env jobId rid oldIp newIp st record hfind henv]; simp
    | some err => rw [processRecord_found_fail env jobId rid oldIp newIp st record err hfind henv]; simp

/-- Frame: `processRecord` for record id `rid` leaves every status entry with a
different key unchanged. -/
theorem processRecord_recordStatus_ne (env : Env)
    (jobId rid oldIp newIp : String) (st : MemStorage) (k : String)
    (h : k ≠ jobId ++ "-" ++ rid) :
    (processRecord env jobId rid oldIp newIp st).st.recordStatus k =
      st.recordStatus k := by
  cases hfind : st.dnsRecords.find? (fun r => r.id == rid) with
  | none =>
    rw [processRecord_notFound env jobId rid oldIp newIp st hfind]
    simp [recordStatus_update_ne _ _ _ _ _ h]
  | some record =>
    cases henv : env.updateResult rid with
    | none =>
      rw [processRecord_found_ok env jobId rid oldIp newIp st record hfind henv]
      simp [recordStatus_update_ne _ _ _ _ _ h]
    | some err =>
      rw [processRecord_found_fail env jobId rid oldIp newIp st record err hfind henv]
      simp [recordStatus_update_ne _ _ _ _ _ h]

/-- The error message stored by the engine is never coerced away by the
`|| null` rule: it is `"Unknown error"` when the thrown message was empty. -/
theorem normErr_engineMsg (err : String) :
    normErr (some (if err.isEmpty then "Unknown error" else err)) =
      some (if err.isEmpty then "Unknown error" else err) := by
  by_cases he : err.isEmpty
  · simp [he, normErr]
    decide
  · simp [he, normErr]

/-- Status entry outcome of `processRecord` when the snapshot is missing. -/
theorem processRecord_status_notFound (env : Env)
    (jobId rid oldIp newIp : String) (st : MemStorage)
    (rs : MigrationRecordStatus)
    (h : st.recordStatus (jobId ++ "-" ++ rid) = some rs)
    (hfind : st.dnsRecords.find? (fun r => r.id == rid) = none) :
    (processRecord env jobId rid oldIp newIp st).st.recordStatus (jobId ++ "-" ++ rid) =
      some { rs with status := "failed", errorMessage := some "Record not found" } := by
  rw [processRecord_notFound env jobId rid oldIp newIp st hfind]
  simp [recordStatus_update_self, h]
  decide

/-- Status entry outcome of `processRecord` when the update call throws. -/
theorem processRecord_status_fail (env : Env)
    (jobId rid oldIp newIp : String) (st : MemStorage)
    (rs : MigrationRecordStatus) (record : DnsRecord) (err : String)
    (h : st.recordStatus (jobId ++ "-" ++ rid) = some rs)
    (hfind : st.dnsRecords.find? (fun r => r.id == rid) = some record)
    (henv : env.updateResult rid = some err) :
    (processRecord env jobId rid oldIp newIp st).st.recordStatus (jobId ++ "-" ++ rid) =
      some { rs with status := "failed", errorMessage := some (if err.isEmpty then "Unknown error" else err) } := by
  rw [processRecord_found_fail env jobId rid oldIp newIp st record err hfind henv]
  simp [recordStatus_update_self, h, normErr_engineMsg]

/-- Status entry outcome of `processRecord` when the update call succeeds. -/
theorem processRecord_status_ok (env : Env)
    (jobId rid oldIp newIp : String) (st : MemStorage)
    (rs : MigrationRecordStatus) (record : DnsRecord)
    (h : st.recordStatus (jobId ++ "-" ++ rid) = some rs)
    (hfind : st.dnsRecords.find? (fun r => r.id == rid) = some record)
    (henv : env.updateResult rid = none) :
    (processRecord env jobId rid oldIp newIp st).st.recordStatus (jobId ++ "-" ++ rid) =
      some { rs with status := "completed", errorMessage := none } := by
  rw [processRecord_found_ok env jobId rid oldIp newIp st record hfind henv]
  simp [recordStatus_update_self, h]
  rfl

/-- After `processRecord` for `rid`, an existing status entry for `rid` is
finalized: `completed` without error message, or `failed` with one. -/
theorem processRecord_finalizes (env : Env) (jobId rid oldIp newIp : String)
    (st : MemStorage) (rs : MigrationRecordStatus)
    (h : st.recordStatus (jobId ++ "-" ++ rid) = some rs) :
    ∃ rs', (processRecord env jobId rid oldIp newIp st).st.recordStatus (jobId ++ "-" ++ rid) = some rs' ∧
      ((rs'.status = "completed" ∧ rs'.errorMessage = none) ∨
        (rs'.status = "failed" ∧ rs'.errorMessage.isSome)) := by
  cases hfind : st.dnsRecords.find? (fun r => r.id == rid) with
  | none =>
    exact ⟨_, processRecord_status_notFound env jobId rid oldIp newIp st rs h hfind, Or.inr ⟨rfl, rfl⟩⟩
  | some record =>
    cases henv : env.updateResult rid with
    | none =>
      exact ⟨_, processRecord_status_ok env jobId rid oldIp newIp st rs record h hfind henv, Or.inl ⟨rfl, rfl⟩⟩
    | some err =>
      exact ⟨_, processRecord_status_fail env jobId rid oldIp newIp st rs record err h hfind henv, Or.inr ⟨rfl, rfl⟩⟩

/-- Frame: `processRecord` never creates or deletes status entries. -/
theorem processRecord_recordStatus_isSome (env : Env)
    (jobId rid oldIp newIp : String) (st : MemStorage) (k : String) :
    ((processRecord env jobId rid oldIp newIp st).st.recordStatus k).isSome =
      (st.recordStatus k).isSome := by
  by_cases hk : k = jobId ++ "-" ++ rid
  · subst hk
    cases hfind : st.dnsRecords.find? (fun r => r.id == rid) with
    | none =>
      rw [processRecord_notFound env jobId rid oldIp newIp st hfind]
      simp [recordStatus_update_self]
    | some record =>
      cases henv : env.updateResult rid with
      | none =>
        rw [processRecord_found_ok env jobId rid oldIp newIp st record hfind henv]
        simp [recordStatus_update_self]
      | some err =>
        rw [processRecord_found_fail env jobId rid oldIp newIp st record err hfind henv]
        simp [recordStatus_update_self]
  · rw [processRecord_recordStatus_ne env jobId rid oldIp newIp st k hk]

/-! ## Lemmas about the processing loop -/

/-- The loop's counters: exactly one counter is incremented per record, and
neither ever decreases. -/
theorem processLoop_counts (env : Env) (jobId oldIp newIp : String)
    (l : List String) (c f : Nat) (st : MemStorage) :
    (processLoop env jobId oldIp newIp l c f st).completed + (processLoop env jobId oldIp newIp l c f st).failed = c + f + l.length ∧
      c ≤ (processLoop env jobId oldIp newIp l c f st).completed ∧
      f ≤ (processLoop env jobId oldIp newIp l c f st).failed := by
  induction l generalizing c f st with
  | nil => simp [processLoop]
  | cons rid rest ih =>
    simp only [processLoop, List.length_cons]
    by_cases hok : (processRecord env jobId rid oldIp newIp st).ok
    · simp only [hok, if_true]
      obtain ⟨h1, h2, h3⟩ := ih (c + 1) f ((processRecord env jobId rid oldIp newIp st).st.updateMigrationJobProgress jobId (c + 1) f)
      exact ⟨by omega, by omega, by omega⟩
    · simp only [hok, if_false, Bool.false_eq_true]
      obtain ⟨h1, h2, h3⟩ := ih c (f + 1) ((processRecord env jobId rid oldIp newIp st).st.updateMigrationJobProgress jobId c (f + 1))
      exact ⟨by omega, by omega, by omega⟩

/-- The loop never touches the stored API configuration. -/
theorem processLoop_config (env : Env) (jobId oldIp newIp : String)
    (l : List String) (c f : Nat) (st : MemStorage) :
    (processLoop env jobId oldIp newIp l c f st).st.apiConfiguration =
      st.apiConfiguration := by
  induction l generalizing c f st with
  | nil => simp [processLoop]
  | cons rid rest ih =>
    simp only [processLoop]
    rw [ih]
    simp [processRecord_config]

/-- Splitting the processing loop at any point. -/
theorem processLoop_append (env : Env) (jobId oldIp newIp : String)
    (l1 l2 : List String) (c f : Nat) (st : MemStorage) :
    processLoop env jobId oldIp newIp (l1 ++ l2) c f st =
      { st := (processLoop env jobId oldIp newIp l2 (processLoop env jobId oldIp newIp l1 c f st).completed (processLoop env jobId oldIp newIp l1 c f st).failed (processLoop env jobId oldIp newIp l1 c f st).st).st,
        completed := (processLoop env jobId oldIp newIp l2 (processLoop env jobId oldIp newIp l1 c f st).completed (processLoop env jobId oldIp newIp l1 c f st).failed (processLoop env jobId oldIp newIp l1 c f st).st).completed,
        failed := (processLoop env jobId oldIp newIp l2 (processLoop env jobId oldIp newIp l1 c f st).completed (processLoop env jobId oldIp newIp l1 c f st).failed (processLoop env jobId oldIp newIp l1 c f st).st).failed,
        calls := (processLoop env jobId oldIp newIp l1 c f st).calls ++ (processLoop env jobId oldIp newIp l2 (processLoop env jobId oldIp newIp l1 c f st).completed (processLoop env jobId oldIp newIp l1 c f st).failed (processLoop env jobId oldIp newIp l1 c f st).st).calls } := by
  induction l1 generalizing c f st with
  | nil => simp [processLoop]
  | cons rid rest ih =>
    simp only [List.cons_append, processLoop, List.append_eq]
    rw [ih]
    simp [List.append_assoc]

/-- The job's stored counters track the loop's counters: if they agree at
entry they agree with the final counters at exit. -/
theorem processLoop_job (env : Env) (jobId oldIp newIp : String)
    (l : List String) (c f : Nat) (st : MemStorage) (job : MigrationJob)
    (hjob : st.getMigrationJob jobId = some job)
    (hc : job.completedRecords = c) (hf : job.failedRecords = f) :
    (processLoop env jobId oldIp newIp l c f st).st.getMigrationJob jobId =
      some { job with completedRecords := (processLoop env jobId oldIp newIp l c f st).completed, failedRecords := (processLoop env jobId oldIp newIp l c f st).failed } := by
  induction l generalizing c f st job with
  | nil =>
    simp only [processLoop]
    rw [hjob, ← hc, ← hf]
  | cons rid rest ih =>
    simp only [processLoop]
    have hstep : (processRecord env jobId rid oldIp newIp st).st.getMigrationJob jobId = some job :=
      (processRecord_getJob env jobId rid oldIp newIp st jobId).trans hjob
    by_cases hok : (processRecord env jobId rid oldIp newIp st).ok
    · simp only [hok, if_true]
      have hupd := getMigrationJob_updateProgress_self (processRecord env jobId rid oldIp newIp st).st jobId (c + 1) f
      rw [hstep, Option.map_some'] at hupd
      have hres := ih (c + 1) f _ _ hupd rfl rfl
      rw [hres]
    · simp only [hok, if_false, Bool.false_eq_true]
      have hupd := getMigrationJob_updateProgress_self (processRecord env jobId rid oldIp newIp st).st jobId c (f + 1)
      rw [hstep, Option.map_some'] at hupd
      have hres := ih c (f + 1) _ _ hupd rfl rfl
      rw [hres]

/-- The loop either leaves a status entry unchanged or leaves it finalized
(`completed` without error message or `failed` with one). -/
theorem processLoop_recordStatus_pres (env : Env) (jobId oldIp newIp : String)
    (l : List String) (c f : Nat) (st : MemStorage) (k : String) :
    (processLoop env jobId oldIp newIp l c f st).st.recordStatus k = st.recordStatus k ∨
      ∃ rs', (processLoop env jobId oldIp newIp l c f st).st.recordStatus k = some rs' ∧
        ((rs'.status = "completed" ∧ rs'.errorMessage = none) ∨
          (rs'.status = "failed" ∧ rs'.errorMessage.isSome)) := by
  induction l generalizing c f st with
  | nil => left; simp [processLoop]
  | cons rid rest ih =>
    simp only [processLoop]
    by_cases hk : k = jobId ++ "-" ++ rid
    · subst hk
      cases hcur : st.recordStatus (jobId ++ "-" ++ rid) with
      | none =>
        -- the entry does not exist; every update is a no-op on it
        have hstep : (processRecord env jobId rid oldIp newIp st).st.recordStatus (jobId ++ "-" ++ rid) = none := by
          have := processRecord_recordStatus_isSome env jobId rid oldIp newIp st (jobId ++ "-" ++ rid)
          rw [hcur] at this
          simpa using Option.not_isSome_iff_eq_none.mp (by simp [this])
        rcases ih _ _ ((processRecord env jobId rid oldIp newIp st).st.updateMigrationJobProgress jobId (if (processRecord env jobId rid oldIp newIp st).ok then c + 1 else c) (if (processRecord env jobId rid oldIp newIp st).ok then f else f + 1)) with h | h
        · left
          rw [h]
          simp [hstep, hcur]
        · right
          exact h
      | some rs =>
        rcases processRecord_finalizes env jobId rid oldIp newIp st rs hcur with ⟨rs', hrs', hfin⟩
        rcases ih _ _ ((processRecord env jobId rid oldIp newIp st).st.updateMigrationJobProgress jobId (if (processRecord env jobId rid oldIp newIp st).ok then c + 1 else c) (if (processRecord env jobId rid oldIp newIp st).ok then f else f + 1)) with h | h
        · right
          refine ⟨rs', ?_, hfin⟩
          rw [h]
          simp [hrs']
        · right
          exact h
    · have hstep := processRecord_recordStatus_ne env jobId rid oldIp newIp st k hk
      rcases ih _ _ ((processRecord env jobId rid oldIp newIp st).st.updateMigrationJobProgress jobId (if (processRecord env jobId rid oldIp newIp st).ok then c + 1 else c) (if (processRecord env jobId rid oldIp newIp st).ok then f else f + 1)) with h | h
      · left
        rw [h]
        simp [hstep]
      · right
        exact h

/-- Status entries neither appear nor disappear across the loop. -/
theorem processLoop_recordStatus_isSome (env : Env)
    (jobId oldIp newIp : String) (l : List String) (c f : Nat)
    (st : MemStorage) (k : String) :
    ((processLoop env jobId oldIp newIp l c f st).st.recordStatus k).isSome =
      (st.recordStatus k).isSome := by
  induction l generalizing c f st with
  | nil => simp [processLoop]
  | cons rid rest ih =>
    simp only [processLoop]
    rw [ih]
    simp [processRecord_recordStatus_isSome]

/-- Every record id in the processed list whose status entry exists at loop
entry ends the loop finalized. -/
theorem processLoop_finalizes_mem (env : Env) (jobId oldIp newIp : String)
    (l : List String) (c f : Nat) (st : MemStorage) :
    ∀ rid ∈ l, (st.recordStatus (jobId ++ "-" ++ rid)).isSome →
      ∃ rs', (processLoop env jobId oldIp newIp l c f st).st.recordStatus (jobId ++ "-" ++ rid) = some rs' ∧
        ((rs'.status = "completed" ∧ rs'.errorMessage = none) ∨
          (rs'.status = "failed" ∧ rs'.errorMessage.isSome)) := by
  induction l generalizing c f st with
  | nil => intro rid h; exact absurd h (List.not_mem_nil rid)
  | cons rid0 rest ih =>
    intro rid hmem hsome
    rcases List.mem_cons.mp hmem with heq | hmem'
    · subst heq
      rcases Option.isSome_iff_exists.mp hsome with ⟨rs, hrs⟩
      rcases processRecord_finalizes env jobId rid oldIp newIp st rs hrs with ⟨rs', hrs', hfin⟩
      simp only [processLoop]
      rcases processLoop_recordStatus_pres env jobId oldIp newIp rest
          (if (processRecord env jobId rid oldIp newIp st).ok then c + 1 else c)
          (if (processRecord env jobId rid oldIp newIp st).ok then f else f + 1)
          ((processRecord env jobId rid oldIp newIp st).st.updateMigrationJobProgress jobId (if (processRecord env jobId rid oldIp newIp st).ok then c + 1 else c) (if (processRecord env jobId rid oldIp newIp st).ok then f else f + 1))
          (jobId ++ "-" ++ rid) with h | h
      · refine ⟨rs', ?_, hfin⟩
        rw [h]
        simp [hrs']
      · exact h
    · simp only [processLoop]
      refine ih _ _ _ rid hmem' ?_
      simp [processRecord_recordStatus_isSome, hsome]

/-! ## Sample data for concrete witnesses -/

/-- A sample stored configuration. -/
def sampleCfg : ApiConfiguration :=
  { id := "default", email := "admin@example.com", apiKey := "secret", isConnected := true }

/-- A sample cached DNS record. -/
def sampleRec1 : DnsRecord :=
  { id := "r1", zoneId := "z1", zoneName := "example.com", name := "www.example.com", type := "A", content := "1.1.1.1", ttl := 300, proxied := false, locked := false }

/-- A second sample cached DNS record. -/
def sampleRec2 : DnsRecord :=
  { id := "r2", zoneId := "z1", zoneName := "example.com", name := "api.example.com", type := "A", content := "9.9.9.9", ttl := 120, proxied := true, locked := false }

/-- A sample job mid-run: 10 records, 6 completed, 1 failed. -/
def progressJob : MigrationJob :=
  { id := "job-7", oldIp := "1.1.1.1", newIp := "2.2.2.2", totalRecords := 10, completedRecords := 6, failedRecords := 1, status := "running", completedAt := false }

/-- A sample storage state holding `progressJob`. -/
def progressState : MemStorage :=
  { apiConfiguration := some sampleCfg, dnsRecords := [sampleRec1, sampleRec2], migrationJobs := [progressJob], migrationRecordStatuses := [], activityLog := [], nextId := 8 }

/-- A sample storage state before any migration has started. -/
def sampleState : MemStorage :=
  { apiConfiguration := some sampleCfg, dnsRecords := [sampleRec1, sampleRec2], migrationJobs := [], migrationRecordStatuses := [], activityLog := [], nextId := 0 }

/-- An environment in which every update call fails for record "r2" and
succeeds otherwise. -/
def sampleEnv : Env :=
  { updateResult := fun rid => if rid = "r2" then some "Cloudflare API error: 403 Forbidden" else none }

/-- A freshly created three-record job, as `startMigration` creates it. -/
def startedJob : MigrationJob :=
  { id := "job-0", oldIp := "1.1.1.1", newIp := "2.2.2.2", totalRecords := 3, completedRecords := 0, failedRecords := 0, status := "pending", completedAt := false }

/-- The storage state right after submitting `startedJob` over record ids
"r1", "r2", "r3" ("r3" has no cached snapshot). -/
def startedState : MemStorage :=
  { apiConfiguration := some sampleCfg,
    dnsRecords := [sampleRec1, sampleRec2],
    migrationJobs := [startedJob],
    migrationRecordStatuses := [
      { id := "job-0-r1", jobId := "job-0", recordId := "r1", status := "pending", errorMessage := none },
      { id := "job-0-r2", jobId := "job-0", recordId := "r2", status := "pending", errorMessage := none },
      { id := "job-0-r3", jobId := "job-0", recordId := "r3", status := "pending", errorMessage := none }],
    activityLog := [{ type := "info", message := "Starting migration for 3 DNS records", details := some "1.1.1.1 → 2.2.2.2" }],
    nextId := 1 }

/-! ## Claim theorems -/

/-- C4: calling `StartMigration` with an empty `recordIds` set is rejected
with HTTP 400 (`InvalidRequest`) and the storage state is returned
untouched: no job, no record-status entries, and no activity entry are
created. -/
theorem C4_empty_request_rejected (st : MemStorage) (oldIp newIp : String) :
    startMigration st oldIp newIp [] = (StartResult.invalidRequest, st) := by
  simp [startMigration]

/-- C10: the configuration read endpoint exposes no `apiKey` field, only the
boolean `hasApiKey`; two states whose stored configurations differ only in
their (non-empty) API keys produce identical responses. -/
theorem C10_apiKey_not_exposed (st : MemStorage) (cfg : ApiConfiguration)
    (k1 k2 : String) (h1 : k1 ≠ "") (h2 : k2 ≠ "") :
    getConfigRoute { st with apiConfiguration := some { cfg with apiKey := k1 } } =
      getConfigRoute { st with apiConfiguration := some { cfg with apiKey := k2 } } := by
  have e1 : k1.isEmpty = false := by
    rcases hb : k1.isEmpty
    · rfl
    · exact absurd ((String.isEmpty_iff k1).mp hb) h1
  have e2 : k2.isEmpty = false := by
    rcases hb : k2.isEmpty
    · rfl
    · exact absurd ((String.isEmpty_iff k2).mp hb) h2
  simp [getConfigRoute, e1, e2]

/-- Witness for C10 at two concrete non-empty keys. -/
theorem C10_witness :
    getConfigRoute { sampleState with apiConfiguration := some { sampleCfg with apiKey := "key-one" } } =
      getConfigRoute { sampleState with apiConfiguration := some { sampleCfg with apiKey := "key-two" } } :=
  C10_apiKey_not_exposed sampleState sampleCfg "key-one" "key-two" (by decide) (by decide)

/-- C3: for an existing job with `totalRecords ≥ 1`, the progress endpoint
reports `processingRecords = totalRecords - completedRecords - failedRecords`
and `progressPercentage = round(((completedRecords + failedRecords) /
totalRecords) * 100)` with round-half-up, which equals the integer
`(200 * (completed + failed) + total) / (2 * total)`. -/
theorem C3_progress_formula (st : MemStorage) (jobId : String)
    (job : MigrationJob) (hjob : st.getMigrationJob jobId = some job)
    (ht : 1 ≤ job.totalRecords) :
    ∃ p, getProgressRoute st jobId = some p ∧
      p.processingRecords = (job.totalRecords : Int) - job.completedRecords - job.failedRecords ∧
      p.progressPercentage = mathRound (((job.completedRecords + job.failedRecords : ℚ) / job.totalRecords) * 100) ∧
      p.progressPercentage = ((200 * (job.completedRecords + job.failedRecords) + job.totalRecords) / (2 * job.totalRecords) : ℕ) := by
  refine ⟨_, by rw [getProgressRoute, hjob, Option.map_some'], rfl, rfl, ?_⟩
  show mathRound (((job.completedRecords + job.failedRecords : ℚ) / job.totalRecords) * 100) = ((200 * (job.completedRecords + job.failedRecords) + job.totalRecords) / (2 * job.totalRecords) : ℕ)
  have ht0 : (job.totalRecords : ℚ) ≠ 0 := by
    have hne : job.totalRecords ≠ 0 := by omega
    exact_mod_cast hne
  have key : ((job.completedRecords + job.failedRecords : ℚ) / job.totalRecords) * 100 + 1 / 2 =
      ((200 * (job.completedRecords + job.failedRecords) + job.totalRecords : ℕ) : ℚ) / ((2 * job.totalRecords : ℕ) : ℚ) := by
    push_cast
    field_simp
    ring
  rw [mathRound, key, Rat.floor_natCast_div_natCast]
  push_cast
  rfl

/-- Witness for C3 at the spec's concrete example (10 total, 6 completed,
1 failed gives 3 processing and 70 percent). -/
theorem C3_witness :
    ∃ p, getProgressRoute progressState "job-7" = some p ∧
      p.processingRecords = 3 ∧ p.progressPercentage = 70 := by
  obtain ⟨p, hp, h1, h2, h3⟩ :=
    C3_progress_formula progressState "job-7" progressJob (by decide) (by decide)
  refine ⟨p, hp, ?_, ?_⟩
  · rw [h1]; rfl
  · rw [h3]; rfl

/-- Every update call issued by one loop iteration carries `content = newIp`. -/
theorem processRecord_calls_content (env : Env)
    (jobId rid oldIp newIp : String) (st : MemStorage) :
    ∀ call ∈ (processRecord env jobId rid oldIp newIp st).calls,
      call.content = newIp := by
  cases hfind : st.dnsRecords.find? (fun r => r.id == rid) with
  | none => rw [processRecord_notFound env jobId rid oldIp newIp st hfind]; simp
  | some record =>
    cases henv : env.updateResult rid with
    | none =>
      rw [processRecord_found_ok env jobId rid oldIp newIp st record hfind henv]
      simp [callOf]
    | some err =>
      rw [processRecord_found_fail env jobId rid oldIp newIp st record err hfind henv]
      simp [callOf]

/-- Every update call issued by the whole loop carries `content = newIp`. -/
theorem processLoop_calls_content (env : Env) (jobId oldIp newIp : String)
    (l : List String) (c f : Nat) (st : MemStorage) :
    ∀ call ∈ (processLoop env jobId oldIp newIp l c f st).calls,
      call.content = newIp := by
  induction l generalizing c f st with
  | nil => simp [processLoop]
  | cons rid rest ih =>
    intro call hmem
    simp only [processLoop] at hmem
    rcases List.mem_append.mp hmem with h | h
    · exact processRecord_calls_content env jobId rid oldIp newIp st call h
    · exact ih _ _ _ call h

/-- C6: the engine rewrites unconditionally: every update call it issues
carries `content = newValue`, and as soon as a submitted record id has a
cached snapshot the call is issued — with no check that the record's current
content equals `oldValue`. -/
theorem C6_unconditional_rewrite (env : Env) (st : MemStorage)
    (jobId oldIp newIp : String) (recordIds : List String) :
    (∀ call ∈ (processMigration env jobId recordIds oldIp newIp st).calls, call.content = newIp) ∧
      (∀ rid record, st.dnsRecords.find? (fun r => r.id == rid) = some record →
        (processRecord env jobId rid oldIp newIp st).calls = [callOf record newIp]) := by
  constructor
  · intro call hmem
    unfold processMigration at hmem
    cases hcfg : st.apiConfiguration with
    | none => rw [hcfg] at hmem; simp at hmem
    | some cfg =>
      rw [hcfg] at hmem
      simp only [addActivity_dns] at hmem
      exact processLoop_calls_content env jobId oldIp newIp recordIds 0 0 _ call hmem
  · intro rid record hfind
    cases henv : env.updateResult rid with
    | none => rw [processRecord_found_ok env jobId rid oldIp newIp st record hfind henv]
    | some err => rw [processRecord_found_fail env jobId rid oldIp newIp st record err hfind henv]

/-- Witness for C6: a run whose `oldValue` matches no record content still
issues calls, all with `content = newValue`. -/
theorem C6_witness :
    (∀ call ∈ (processMigration sampleEnv "job-0" ["r1", "r2"] "7.7.7.7" "2.2.2.2" sampleState).calls, call.content = "2.2.2.2") ∧
      (processRecord sampleEnv "job-0" "r1" "7.7.7.7" "2.2.2.2" sampleState).calls = [callOf sampleRec1 "2.2.2.2"] := by
  obtain ⟨h1, h2⟩ := C6_unconditional_rewrite sampleEnv sampleState "job-0" "7.7.7.7" "2.2.2.2" ["r1", "r2"]
  exact ⟨h1, h2 "r1" sampleRec1 (by decide)⟩

/-- Lemma: `setBy` appends when the key is absent from the accumulator. -/
theorem setBy_eq_append {α : Type} (key : α → String) (acc : List α) (r : α)
    (h : ∀ x ∈ acc, key x ≠ key r) : setBy key acc r = acc ++ [r] := by
  induction acc with
  | nil => rfl
  | cons x xs ih =>
    have hx : key x ≠ key r := h x (List.mem_cons_self x xs)
    simp only [setBy, if_neg hx, List.cons_append]
    rw [ih (fun y hy => h y (List.mem_cons_of_mem x hy))]

/-- Re-`set`ting a key-disjoint, duplicate-free batch into a map appends it. -/
theorem foldl_setBy_eq {α : Type} (key : α → String) (l acc : List α)
    (hd : ∀ x ∈ acc, ∀ y ∈ l, key x ≠ key y) (hn : (l.map key).Nodup) :
    l.foldl (setBy key) acc = acc ++ l := by
  induction l generalizing acc with
  | nil => simp
  | cons r rest ih =>
    simp only [List.foldl_cons]
    rw [setBy_eq_append key acc r (fun x hx => hd x hx r (List.mem_cons_self r rest))]
    have hn' : (rest.map key).Nodup := by
      simp only [List.map_cons, List.nodup_cons] at hn
      exact hn.2
    have hr : key r ∉ rest.map key := by
      simp only [List.map_cons, List.nodup_cons] at hn
      exact hn.1
    have hd' : ∀ x ∈ acc ++ [r], ∀ y ∈ rest, key x ≠ key y := by
      intro x hx y hy
      rcases List.mem_append.mp hx with hxa | hxr
      · exact hd x hxa y (List.mem_cons_of_mem r hy)
      · have : x = r := List.mem_singleton.mp hxr
        subst this
        intro hcon
        exact hr (hcon ▸ List.mem_map_of_mem key hy)
    rw [ih (acc ++ [r]) hd' hn']
    simp

/-- Re-`set`ting a duplicate-free record list into an empty map returns it
unchanged. -/
theorem foldl_setBy_nil {α : Type} (key : α → String) (l : List α)
    (hn : (l.map key).Nodup) : l.foldl (setBy key) [] = l := by
  have := foldl_setBy_eq key l [] (by intro x hx; exact absurd hx (List.not_mem_nil x)) hn
  simpa using this

/-- Lemma: `updateContentFirst` keeps record ids unchanged. -/
theorem updateContentFirst_map_id (rid newIp : String) (l : List DnsRecord) :
    (updateContentFirst rid newIp l).map DnsRecord.id = l.map DnsRecord.id := by
  induction l with
  | nil => rfl
  | cons r rest ih =>
    by_cases h : r.id = rid
    · simp [updateContentFirst, h]
    · simp [updateContentFirst, h, ih]

/-- On a duplicate-free record list, mutating the first matching record is
the same as mapping the content update over the whole list. -/
theorem updateContentFirst_eq_map (rid newIp : String) (l : List DnsRecord)
    (hn : (l.map DnsRecord.id).Nodup) :
    updateContentFirst rid newIp l =
      l.map (fun r => if r.id = rid then { r with content := newIp } else r) := by
  induction l with
  | nil => rfl
  | cons r rest ih =>
    simp only [List.map_cons, List.nodup_cons] at hn
    by_cases h : r.id = rid
    · simp only [updateContentFirst, if_pos h, List.map_cons, if_pos h]
      have hfix : rest.map (fun x => if x.id = rid then { x with content := newIp } else x) = rest := by
        have hx : ∀ x ∈ rest, (if x.id = rid then { x with content := newIp } else x) = id x := by
          intro x hxm
          have hne : x.id ≠ rid := by
            intro hc
            apply hn.1
            rw [h, ← hc]
            exact List.mem_map_of_mem DnsRecord.id hxm
          simp [hne]
        rw [List.map_congr_left hx, List.map_id]
      rw [hfix]
    · simp only [updateContentFirst, if_neg h, List.map_cons, if_neg h]
      rw [ih hn.2]

/-- C9: when the external update call for a record succeeds, the cached
snapshot list afterwards is exactly the old list with only that record's
`content` replaced by `newValue` — all its other fields (id, zoneId,
zoneName, name, type, ttl, proxied, locked) and all other records'
snapshots are unchanged, so a subsequent listing reflects exactly this one
change. (The snapshot map never holds two records with one id; the `Nodup`
hypothesis states that invariant.) -/
theorem C9_snapshot_frame (env : Env) (st : MemStorage)
    (jobId rid oldIp newIp : String) (record : DnsRecord)
    (hn : (st.dnsRecords.map DnsRecord.id).Nodup)
    (hfind : st.dnsRecords.find? (fun r => r.id == rid) = some record)
    (henv : env.updateResult rid = none) :
    (processRecord env jobId rid oldIp newIp st).st.getDnsRecords =
      st.getDnsRecords.map (fun r => if r.id = rid then { r with content := newIp } else r) := by
  rw [processRecord_found_ok env jobId rid oldIp newIp st record hfind henv]
  show ((((st.updateMigrationRecordStatus (jobId ++ "-" ++ rid) "processing" none).saveDnsRecords (updateContentFirst rid newIp st.dnsRecords)).updateMigrationRecordStatus (jobId ++ "-" ++ rid) "completed" none).addActivityLogEntry _).dnsRecords = _
  simp only [addActivity_dns, updateRecordStatus_dns]
  show (updateContentFirst rid newIp st.dnsRecords).foldl (setBy DnsRecord.id) [] = _
  rw [foldl_setBy_nil DnsRecord.id _ (by rw [updateContentFirst_map_id]; exact hn)]
  exact updateContentFirst_eq_map rid newIp st.dnsRecords hn

/-- Witness for C9: the successful update of record "r1" rewrites exactly
its content in the cached listing. -/
theorem C9_witness :
    (processRecord sampleEnv "job-0" "r1" "1.1.1.1" "2.2.2.2" sampleState).st.getDnsRecords =
      sampleState.getDnsRecords.map (fun r => if r.id = "r1" then { r with content := "2.2.2.2" } else r) :=
  C9_snapshot_frame sampleEnv sampleState "job-0" "r1" "1.1.1.1" "2.2.2.2" sampleRec1 (by decide) (by decide) (by decide)

/-- Behavior of `processMigration` when an API configuration is present: mark running,
run the loop, mark completed, log the summary. -/
theorem processMigration_some (env : Env) (jobId : String)
    (recordIds : List String) (oldIp newIp : String) (st : MemStorage)
    (cfg : ApiConfiguration) (hcfg : st.apiConfiguration = some cfg) :
    processMigration env jobId recordIds oldIp newIp st =
      { st := ((processLoop env jobId oldIp newIp recordIds 0 0 (st.updateMigrationJobStatus jobId "running")).st.updateMigrationJobStatus jobId "completed").addActivityLogEntry { type := "success", message := "Migration completed: " ++ toString (processLoop env jobId oldIp newIp recordIds 0 0 (st.updateMigrationJobStatus jobId "running")).completed ++ " success, " ++ toString (processLoop env jobId oldIp newIp recordIds 0 0 (st.updateMigrationJobStatus jobId "running")).failed ++ " failed", details := none },
        calls := (processLoop env jobId oldIp newIp recordIds 0 0 (st.updateMigrationJobStatus jobId "running")).calls } := by
  unfold processMigration
  rw [hcfg]

/-- Behavior of `processMigration` when no API configuration is stored: the batch cannot
start and the job is marked failed. -/
theorem processMigration_none (env : Env) (jobId : String)
    (recordIds : List String) (oldIp newIp : String) (st : MemStorage)
    (hcfg : st.apiConfiguration = none) :
    processMigration env jobId recordIds oldIp newIp st =
      { st := (st.updateMigrationJobStatus jobId "failed").addActivityLogEntry { type := "error", message := "Migration failed: No API configuration found", details := none },
        calls := [] } := by
  unfold processMigration
  rw [hcfg]

/-- A job present at loop entry is still present at loop exit. -/
theorem processLoop_getJob_exists (env : Env) (jobId oldIp newIp : String)
    (l : List String) (c f : Nat) (st : MemStorage) :
    ∀ job, st.getMigrationJob jobId = some job →
      ∃ job', (processLoop env jobId oldIp newIp l c f st).st.getMigrationJob jobId = some job' := by
  induction l generalizing c f st with
  | nil => intro job h; exact ⟨job, by simpa [processLoop] using h⟩
  | cons rid rest ih =>
    intro job h
    simp only [processLoop]
    have hstep : (processRecord env jobId rid oldIp newIp st).st.getMigrationJob jobId = some job :=
      (processRecord_getJob env jobId rid oldIp newIp st jobId).trans h
    have hupd := getMigrationJob_updateProgress_self (processRecord env jobId rid oldIp newIp st).st jobId (if (processRecord env jobId rid oldIp newIp st).ok then c + 1 else c) (if (processRecord env jobId rid oldIp newIp st).ok then f else f + 1)
    rw [hstep, Option.map_some'] at hupd
    exact ih _ _ _ _ hupd

/-- C5: a record id with no matching snapshot in the cached listing is
treated as a per-record failure: its status entry becomes `failed` with
errorMessage exactly "Record not found", no update call is issued, an error
activity entry is emitted, and the loop continues with the remaining
records, carrying `failed + 1`. -/
theorem C5_missing_record (env : Env) (st : MemStorage)
    (jobId rid oldIp newIp : String) (rest : List String) (c f : Nat)
    (rs : MigrationRecordStatus)
    (hfind : st.dnsRecords.find? (fun r => r.id == rid) = none)
    (hrs : st.recordStatus (jobId ++ "-" ++ rid) = some rs) :
    (processRecord env jobId rid oldIp newIp st).ok = false ∧
      (processRecord env jobId rid oldIp newIp st).calls = [] ∧
      (processRecord env jobId rid oldIp newIp st).st.recordStatus (jobId ++ "-" ++ rid) =
        some { rs with status := "failed", errorMessage := some "Record not found" } ∧
      (processRecord env jobId rid oldIp newIp st).st.activityLog.head? =
        some { type := "error", message := "Failed to update DNS record: Record not found", details := none } ∧
      processLoop env jobId oldIp newIp (rid :: rest) c f st =
        processLoop env jobId oldIp newIp rest c (f + 1)
          ((processRecord env jobId rid oldIp newIp st).st.updateMigrationJobProgress jobId c (f + 1)) := by
  have hstep := processRecord_notFound env jobId rid oldIp newIp st hfind
  refine ⟨by rw [hstep], by rw [hstep],
    processRecord_status_notFound env jobId rid oldIp newIp st rs hrs hfind, ?_, ?_⟩
  · rw [hstep]
    show (MemStorage.addActivityLogEntry _ _).activityLog.head? = _
    rw [addActivity_log]
    rw [show (100 : Nat) = 99 + 1 from rfl, List.take_succ_cons]
    rfl
  · simp only [processLoop]
    rw [hstep]
    simp

/-- Witness for C5: record id "r3" has no snapshot in `startedState`. -/
theorem C5_witness :
    (processRecord sampleEnv "job-0" "r3" "1.1.1.1" "2.2.2.2" startedState).ok = false ∧
      (processRecord sampleEnv "job-0" "r3" "1.1.1.1" "2.2.2.2" startedState).calls = [] ∧
      (processRecord sampleEnv "job-0" "r3" "1.1.1.1" "2.2.2.2" startedState).st.recordStatus "job-0-r3" =
        some { id := "job-0-r3", jobId := "job-0", recordId := "r3", status := "failed", errorMessage := some "Record not found" } ∧
      (processRecord sampleEnv "job-0" "r3" "1.1.1.1" "2.2.2.2" startedState).st.activityLog.head? =
        some { type := "error", message := "Failed to update DNS record: Record not found", details := none } ∧
      processLoop sampleEnv "job-0" "1.1.1.1" "2.2.2.2" ["r3", "r1"] 0 0 startedState =
        processLoop sampleEnv "job-0" "1.1.1.1" "2.2.2.2" ["r1"] 0 1
          ((processRecord sampleEnv "job-0" "r3" "1.1.1.1" "2.2.2.2" startedState).st.updateMigrationJobProgress "job-0" 0 1) :=
  C5_missing_record sampleEnv startedState "job-0" "r3" "1.1.1.1" "2.2.2.2" ["r1"] 0 0
    { id := "job-0-r3", jobId := "job-0", recordId := "r3", status := "pending", errorMessage := none }
    (by decide) (by decide)

/-- C1: once a batch starts (an API configuration exists), per-record
failures are isolated: whatever the environment does, every submitted
record's status entry ends `completed` or `failed` and the job itself ends
in status `completed`; the job-level `failed` status is reached exactly when
the batch could not start at all (no configuration). -/
theorem C1_failure_isolation (env : Env) (st : MemStorage)
    (jobId oldIp newIp : String) (recordIds : List String)
    (hjob : (st.getMigrationJob jobId).isSome)
    (hrs : ∀ rid ∈ recordIds, (st.recordStatus (jobId ++ "-" ++ rid)).isSome) :
    (st.apiConfiguration ≠ none →
      ∃ job', (processMigration env jobId recordIds oldIp newIp st).st.getMigrationJob jobId = some job' ∧
        job'.status = "completed" ∧
        ∀ rid ∈ recordIds, ∃ rs', (processMigration env jobId recordIds oldIp newIp st).st.recordStatus (jobId ++ "-" ++ rid) = some rs' ∧
          (rs'.status = "completed" ∨ rs'.status = "failed")) ∧
      (st.apiConfiguration = none →
        ∃ job', (processMigration env jobId recordIds oldIp newIp st).st.getMigrationJob jobId = some job' ∧
          job'.status = "failed") := by
  obtain ⟨job0, hjob0⟩ := Option.isSome_iff_exists.mp hjob
  constructor
  · intro hne
    cases hcase : st.apiConfiguration with
    | none => exact absurd hcase hne
    | some cfg =>
      rw [processMigration_some env jobId recordIds oldIp newIp st cfg hcase]
      have hjob1 := getMigrationJob_updateStatus_self st jobId "running"
      rw [hjob0, Option.map_some'] at hjob1
      obtain ⟨job2, hjob2⟩ := processLoop_getJob_exists env jobId oldIp newIp recordIds 0 0
        (st.updateMigrationJobStatus jobId "running") _ hjob1
      have hjob3 := getMigrationJob_updateStatus_self
        (processLoop env jobId oldIp newIp recordIds 0 0 (st.updateMigrationJobStatus jobId "running")).st jobId "completed"
      rw [hjob2, Option.map_some'] at hjob3
      refine ⟨_, by rw [getMigrationJob_addActivity]; exact hjob3, rfl, ?_⟩
      intro rid hmem
      have hsome1 : ((st.updateMigrationJobStatus jobId "running").recordStatus (jobId ++ "-" ++ rid)).isSome := by
        rw [recordStatus_updateJobStatus]
        exact hrs rid hmem
      obtain ⟨rs', hrs', hfin⟩ := processLoop_finalizes_mem env jobId oldIp newIp recordIds 0 0
        (st.updateMigrationJobStatus jobId "running") rid hmem hsome1
      refine ⟨rs', ?_, ?_⟩
      · rw [recordStatus_addActivity, recordStatus_updateJobStatus]
        exact hrs'
      · rcases hfin with ⟨h1, _⟩ | ⟨h1, _⟩
        · exact Or.inl h1
        · exact Or.inr h1
  · intro hcase
    rw [processMigration_none env jobId recordIds oldIp newIp st hcase]
    have h := getMigrationJob_updateStatus_self st jobId "failed"
    rw [hjob0, Option.map_some'] at h
    exact ⟨_, by rw [getMigrationJob_addActivity]; exact h, rfl⟩

/-- Witness for C1: a three-record run with one external failure ("r2") and
one missing record ("r3") still finalizes every record and completes. -/
theorem C1_witness :
    ∃ job', (processMigration sampleEnv "job-0" ["r1", "r2", "r3"] "1.1.1.1" "2.2.2.2" startedState).st.getMigrationJob "job-0" = some job' ∧
      job'.status = "completed" ∧
      ∀ rid ∈ ["r1", "r2", "r3"], ∃ rs', (processMigration sampleEnv "job-0" ["r1", "r2", "r3"] "1.1.1.1" "2.2.2.2" startedState).st.recordStatus ("job-0" ++ "-" ++ rid) = some rs' ∧
        (rs'.status = "completed" ∨ rs'.status = "failed") :=
  (C1_failure_isolation sampleEnv startedState "job-0" "1.1.1.1" "2.2.2.2" ["r1", "r2", "r3"]
    (by decide) (by decide)).1 (by decide)

/-- Counters only grow when the processed list is extended. -/
theorem processLoop_mono_append (env : Env) (jobId oldIp newIp : String)
    (l1 l2 : List String) (c f : Nat) (st : MemStorage) :
    (processLoop env jobId oldIp newIp l1 c f st).completed ≤ (processLoop env jobId oldIp newIp (l1 ++ l2) c f st).completed ∧
      (processLoop env jobId oldIp newIp l1 c f st).failed ≤ (processLoop env jobId oldIp newIp (l1 ++ l2) c f st).failed := by
  rw [processLoop_append]
  exact ⟨(processLoop_counts env jobId oldIp newIp l2 _ _ _).2.1,
    (processLoop_counts env jobId oldIp newIp l2 _ _ _).2.2⟩

/-- C2: starting from a freshly created job (counters 0, totalRecords =
number of submitted ids), at every prefix of the processing loop the stored
counters satisfy `completed + failed = number processed ≤ totalRecords`,
they never exceed the final counters (monotonicity), and at the end
`completed + failed = totalRecords`. -/
theorem C2_counter_invariant (env : Env) (st : MemStorage)
    (jobId oldIp newIp : String) (l1 l2 : List String) (job : MigrationJob)
    (hjob : st.getMigrationJob jobId = some job)
    (hc : job.completedRecords = 0) (hf : job.failedRecords = 0)
    (ht : job.totalRecords = (l1 ++ l2).length) :
    ∃ jm jf,
      (processLoop env jobId oldIp newIp l1 0 0 (st.updateMigrationJobStatus jobId "running")).st.getMigrationJob jobId = some jm ∧
        (processLoop env jobId oldIp newIp (l1 ++ l2) 0 0 (st.updateMigrationJobStatus jobId "running")).st.getMigrationJob jobId = some jf ∧
        jm.completedRecords + jm.failedRecords = l1.length ∧
        jm.completedRecords + jm.failedRecords ≤ job.totalRecords ∧
        jf.completedRecords + jf.failedRecords = job.totalRecords ∧
        jm.completedRecords ≤ jf.completedRecords ∧
        jm.failedRecords ≤ jf.failedRecords := by
  have hjob1 := getMigrationJob_updateStatus_self st jobId "running"
  rw [hjob, Option.map_some'] at hjob1
  have hm := processLoop_job env jobId oldIp newIp l1 0 0
    (st.updateMigrationJobStatus jobId "running") _ hjob1 hc hf
  have hfull := processLoop_job env jobId oldIp newIp (l1 ++ l2) 0 0
    (st.updateMigrationJobStatus jobId "running") _ hjob1 hc hf
  obtain ⟨c1eq, -, -⟩ := processLoop_counts env jobId oldIp newIp l1 0 0
    (st.updateMigrationJobStatus jobId "running")
  obtain ⟨c2eq, -, -⟩ := processLoop_counts env jobId oldIp newIp (l1 ++ l2) 0 0
    (st.updateMigrationJobStatus jobId "running")
  obtain ⟨hmc, hmf⟩ := processLoop_mono_append env jobId oldIp newIp l1 l2 0 0
    (st.updateMigrationJobStatus jobId "running")
  have hlen : (l1 ++ l2).length = l1.length + l2.length := List.length_append l1 l2
  refine ⟨_, _, hm, hfull, ?_, ?_, ?_, ?_, ?_⟩
  · show (processLoop env jobId oldIp newIp l1 0 0 (st.updateMigrationJobStatus jobId "running")).completed + (processLoop env jobId oldIp newIp l1 0 0 (st.updateMigrationJobStatus jobId "running")).failed = l1.length
    omega
  · show (processLoop env jobId oldIp newIp l1 0 0 (st.updateMigrationJobStatus jobId "running")).completed + (processLoop env jobId oldIp newIp l1 0 0 (st.updateMigrationJobStatus jobId "running")).failed ≤ job.totalRecords
    omega
  · show (processLoop env jobId oldIp newIp (l1 ++ l2) 0 0 (st.updateMigrationJobStatus jobId "running")).completed + (processLoop env jobId oldIp newIp (l1 ++ l2) 0 0 (st.updateMigrationJobStatus jobId "running")).failed = job.totalRecords
    omega
  · show (processLoop env jobId oldIp newIp l1 0 0 (st.updateMigrationJobStatus jobId "running")).completed ≤ (processLoop env jobId oldIp newIp (l1 ++ l2) 0 0 (st.updateMigrationJobStatus jobId "running")).completed
    omega
  · show (processLoop env jobId oldIp newIp l1 0 0 (st.updateMigrationJobStatus jobId "running")).failed ≤ (processLoop env jobId oldIp newIp (l1 ++ l2) 0 0 (st.updateMigrationJobStatus jobId "running")).failed
    omega

/-- Witness for C2 at the prefix ["r1"] of the three-record run. -/
theorem C2_witness :
    ∃ jm jf,
      (processLoop sampleEnv "job-0" "1.1.1.1" "2.2.2.2" ["r1"] 0 0 (startedState.updateMigrationJobStatus "job-0" "running")).st.getMigrationJob "job-0" = some jm ∧
        (processLoop sampleEnv "job-0" "1.1.1.1" "2.2.2.2" (["r1"] ++ ["r2", "r3"]) 0 0 (startedState.updateMigrationJobStatus "job-0" "running")).st.getMigrationJob "job-0" = some jf ∧
        jm.completedRecords + jm.failedRecords = ["r1"].length ∧
        jm.completedRecords + jm.failedRecords ≤ startedJob.totalRecords ∧
        jf.completedRecords + jf.failedRecords = startedJob.totalRecords ∧
        jm.completedRecords ≤ jf.completedRecords ∧
        jm.failedRecords ≤ jf.failedRecords :=
  C2_counter_invariant sampleEnv startedState "job-0" "1.1.1.1" "2.2.2.2" ["r1"] ["r2", "r3"]
    startedJob (by decide) (by decide) (by decide) (by decide)

/-! ## The activity log (C7) -/

/-- Truncating the appendix before appending does not change a truncation. -/
theorem take_append_take {α : Type} (A B : List α) (n : Nat) :
    (A ++ B.take n).take n = (A ++ B).take n := by
  rw [List.take_append_eq_append_take, List.take_take,
    inf_eq_left.mpr (Nat.sub_le n A.length), ← List.take_append_eq_append_take]

/-- A sequence of `addActivityLogEntry` calls, oldest first. -/
def addEntries (es : List ActivityLogEntry) (st : MemStorage) : MemStorage :=
  es.foldl MemStorage.addActivityLogEntry st

/-- After writing a non-empty batch of entries, the log is the newest-first
`take 100` of the batch (reversed) in front of the old log. -/
theorem addEntries_log (es : List ActivityLogEntry) (st : MemStorage)
    (h : es ≠ []) :
    (addEntries es st).activityLog = (es.reverse ++ st.activityLog).take 100 := by
  induction es generalizing st with
  | nil => exact absurd rfl h
  | cons e es' ih =>
    show (addEntries es' (st.addActivityLogEntry e)).activityLog = _
    by_cases h' : es' = []
    · subst h'
      show (st.addActivityLogEntry e).activityLog = _
      rw [addActivity_log]
      simp
    · rw [ih (st.addActivityLogEntry e) h', addActivity_log, take_append_take]
      simp [List.append_assoc]

/-- C7: the activity log is bounded to the 100 newest entries: an append
never leaves more than 100 entries, an append onto a full log evicts the
oldest entry, and after a run of 101 appends `GetActivityLog limit` with
`limit ≥ 100` returns exactly the 100 most recent entries, newest first. -/
theorem C7_activity_log_bound (st : MemStorage) (e : ActivityLogEntry) :
    (st.addActivityLogEntry e).activityLog.length ≤ 100 ∧
      (st.activityLog.length = 100 → (st.addActivityLogEntry e).activityLog = e :: st.activityLog.take 99) ∧
      (∀ es : List ActivityLogEntry, es.length = 101 → ∀ limit, 100 ≤ limit →
        (addEntries es st).getActivityLog limit = es.reverse.take 100) := by
  refine ⟨?_, ?_, ?_⟩
  · rw [addActivity_log]
    simp
  · intro h100
    rw [addActivity_log, show (100 : Nat) = 99 + 1 from rfl, List.take_succ_cons]
  · intro es hlen limit hlimit
    have hne : es ≠ [] := by
      intro hz
      subst hz
      simp at hlen
    show ((addEntries es st).activityLog).take limit = _
    rw [addEntries_log es st hne, List.take_take, inf_eq_right.mpr hlimit,
      List.take_append_of_le_length (by rw [List.length_reverse, hlen]; omega)]

/-- A stock log entry for the C7 witness. -/
def logEntry0 : ActivityLogEntry :=
  { type := "info", message := "old entry", details := none }

/-- A second stock log entry for the C7 witness. -/
def logEntry1 : ActivityLogEntry :=
  { type := "success", message := "new entry", details := none }

/-- A state whose activity log is exactly full (100 entries). -/
def logFullState : MemStorage :=
  { sampleState with activityLog := List.replicate 100 logEntry0 }

/-- Witness for C7: eviction on a full log, and the 101-entry scenario with
`GetActivityLog 150`. -/
theorem C7_witness :
    (logFullState.addActivityLogEntry logEntry1).activityLog = logEntry1 :: logFullState.activityLog.take 99 ∧
      (addEntries (List.replicate 101 logEntry1) sampleState).getActivityLog 150 = (List.replicate 101 logEntry1).reverse.take 100 := by
  obtain ⟨-, h2, -⟩ := C7_activity_log_bound logFullState logEntry1
  obtain ⟨-, -, g3⟩ := C7_activity_log_bound sampleState logEntry1
  exact ⟨h2 (by simp [logFullState]), g3 _ (by simp) 150 (by omega)⟩

/-! ## The record-status error-message invariant (C8) -/

/-- The invariant of C8: a status entry carries an error message exactly
when it is `failed`. -/
def statusInv (st : MemStorage) : Prop :=
  ∀ rs ∈ st.migrationRecordStatuses, (rs.errorMessage ≠ none ↔ rs.status = "failed")

/-- Lemma: `updateMigrationRecordStatus` preserves the invariant whenever the
written pair itself satisfies it. -/
theorem statusInv_update (st : MemStorage) (k s : String) (e : Option String)
    (hcompat : (normErr e ≠ none ↔ s = "failed")) (h : statusInv st) :
    statusInv (st.updateMigrationRecordStatus k s e) := by
  intro rs' hm
  have hm' : rs' ∈ st.migrationRecordStatuses.map (fun rs => if rs.id == k then { rs with status := s, errorMessage := normErr e } else rs) := hm
  rcases List.mem_map.mp hm' with ⟨rs, hrs, heq⟩
  by_cases hid : (rs.id == k) = true
  · rw [if_pos hid] at heq
    subst heq
    exact hcompat
  · rw [if_neg hid] at heq
    subst heq
    exact h rs hrs

/-- Membership in a `set` is membership in the old map or the new entry. -/
theorem mem_setBy {α : Type} (key : α → String) (l : List α) (r x : α)
    (hx : x ∈ setBy key l r) : x ∈ l ∨ x = r := by
  induction l with
  | nil =>
    simp only [setBy, List.mem_singleton] at hx
    exact Or.inr hx
  | cons y ys ih =>
    simp only [setBy] at hx
    by_cases hk : key y = key r
    · rw [if_pos hk] at hx
      rcases List.mem_cons.mp hx with h | h
      · exact Or.inr h
      · exact Or.inl (List.mem_cons_of_mem y h)
    · rw [if_neg hk] at hx
      rcases List.mem_cons.mp hx with h | h
      · exact Or.inl (by rw [h]; exact List.mem_cons_self y ys)
      · rcases ih h with h' | h'
        · exact Or.inl (List.mem_cons_of_mem y h')
        · exact Or.inr h'

/-- Membership after re-`set`ting a batch. -/
theorem mem_foldl_setBy {α : Type} (key : α → String) (l acc : List α) (x : α)
    (hx : x ∈ l.foldl (setBy key) acc) : x ∈ acc ∨ x ∈ l := by
  induction l generalizing acc with
  | nil => exact Or.inl hx
  | cons r rest ih =>
    rcases ih (setBy key acc r) hx with h | h
    · rcases mem_setBy key acc r x h with h' | h'
      · exact Or.inl h'
      · exact Or.inr (by rw [h']; exact List.mem_cons_self r rest)
    · exact Or.inr (List.mem_cons_of_mem r h)

/-- Lemma: `saveMigrationRecordStatus` preserves the invariant when every written
entry satisfies it. -/
theorem statusInv_save (st : MemStorage)
    (statuses : List MigrationRecordStatus)
    (hnew : ∀ rs ∈ statuses, (rs.errorMessage ≠ none ↔ rs.status = "failed"))
    (h : statusInv st) : statusInv (st.saveMigrationRecordStatus statuses) := by
  intro rs hm
  rcases mem_foldl_setBy MigrationRecordStatus.id statuses st.migrationRecordStatuses rs hm with h' | h'
  · exact h rs h'
  · exact hnew rs h'

/-- One loop iteration preserves the invariant: its three transitions write
`processing`/`completed` with no message and `failed` with a non-empty one. -/
theorem statusInv_processRecord (env : Env) (jobId rid oldIp newIp : String)
    (st : MemStorage) (h : statusInv st) :
    statusInv (processRecord env jobId rid oldIp newIp st).st := by
  cases hfind : st.dnsRecords.find? (fun r => r.id == rid) with
  | none =>
    rw [processRecord_notFound env jobId rid oldIp newIp st hfind]
    exact statusInv_update _ _ _ _ (by decide) (statusInv_update _ _ _ _ (by decide) h)
  | some record =>
    cases henv : env.updateResult rid with
    | none =>
      rw [processRecord_found_ok env jobId rid oldIp newIp st record hfind henv]
      exact statusInv_update _ _ _ _ (by decide) (statusInv_update _ _ _ _ (by decide) h)
    | some err =>
      rw [processRecord_found_fail env jobId rid oldIp newIp st record err hfind henv]
      refine statusInv_update _ _ _ _ ?_ (statusInv_update _ _ _ _ (by decide) h)
      rw [normErr_engineMsg]
      simp

/-- The whole loop preserves the invariant. -/
theorem statusInv_processLoop (env : Env) (jobId oldIp newIp : String)
    (l : List String) (c f : Nat) (st : MemStorage) (h : statusInv st) :
    statusInv (processLoop env jobId oldIp newIp l c f st).st := by
  induction l generalizing c f st with
  | nil => exact h
  | cons rid rest ih =>
    exact ih _ _ _ (statusInv_processRecord env jobId rid oldIp newIp st h)

/-- Job submission creates only `pending` entries with no error message. -/
theorem statusInv_start (st : MemStorage) (oldIp newIp : String)
    (recordIds : List String) (h : statusInv st) :
    statusInv (startMigration st oldIp newIp recordIds).2 := by
  unfold startMigration
  by_cases hguard : (oldIp.isEmpty || newIp.isEmpty || recordIds.isEmpty) = true
  · simp only [hguard, if_true]
    exact h
  · simp only [hguard, if_false]
    refine statusInv_save _ _ ?_ h
    intro rs hm
    rcases List.mem_map.mp hm with ⟨rid, -, heq⟩
    subst heq
    show (none : Option String) ≠ none ↔ ("pending" : String) = "failed"
    decide

/-- A whole `processMigration` run preserves the invariant (it never touches
status entries at all when the batch cannot start). -/
theorem statusInv_processMigration (env : Env) (jobId : String)
    (recordIds : List String) (oldIp newIp : String) (st : MemStorage)
    (h : statusInv st) :
    statusInv (processMigration env jobId recordIds oldIp newIp st).st := by
  cases hcfg : st.apiConfiguration with
  | none =>
    rw [processMigration_none env jobId recordIds oldIp newIp st hcfg]
    exact h
  | some cfg =>
    rw [processMigration_some env jobId recordIds oldIp newIp st cfg hcfg]
    exact statusInv_processLoop env jobId oldIp newIp recordIds 0 0 _ h

/-- C8: in every state the engine produces — at submission (entries created
`pending` with null message), after every loop prefix (so after each
`processing`/`completed`/`failed` transition), and after a full run —
a record-status entry has a non-null errorMessage iff its status is
`failed`. -/
theorem C8_error_message_invariant (env : Env) (st : MemStorage)
    (jobId oldIp newIp : String) (recordIds : List String)
    (h : statusInv st) :
    statusInv (startMigration st oldIp newIp recordIds).2 ∧
      (∀ l1 l2 : List String, recordIds = l1 ++ l2 →
        statusInv (processLoop env jobId oldIp newIp l1 0 0 (st.updateMigrationJobStatus jobId "running")).st) ∧
      statusInv (processMigration env jobId recordIds oldIp newIp (startMigration st oldIp newIp recordIds).2).st :=
  ⟨statusInv_start st oldIp newIp recordIds h,
    fun l1 _ _ => statusInv_processLoop env jobId oldIp newIp l1 0 0 _ h,
    statusInv_processMigration env jobId recordIds oldIp newIp _
      (statusInv_start st oldIp newIp recordIds h)⟩

/-- Witness for C8 on the concrete three-record run. -/
theorem C8_witness :
    statusInv (startMigration startedState "1.1.1.1" "2.2.2.2" ["r1", "r2", "r3"]).2 ∧
      (∀ l1 l2 : List String, ["r1", "r2", "r3"] = l1 ++ l2 →
        statusInv (processLoop sampleEnv "job-0" "1.1.1.1" "2.2.2.2" l1 0 0 (startedState.updateMigrationJobStatus "job-0" "running")).st) ∧
      statusInv (processMigration sampleEnv "job-0" ["r1", "r2", "r3"] "1.1.1.1" "2.2.2.2" (startMigration startedState "1.1.1.1" "2.2.2.2" ["r1", "r2", "r3"]).2).st :=
  C8_error_message_invariant sampleEnv startedState "job-0" "1.1.1.1" "2.2.2.2" ["r1", "r2", "r3"]
    (by unfold statusInv; decide)

end DnsMigrate
